import Mathlib

/-!
Verification of the kawana IP-reputation data store.

The Go source is shallowly embedded: machine integers become `Nat` with
explicit truncation (`% 2^32`, `% 2^16`) where the Go code casts or where
fixed-width arithmetic wraps; the wall clock is passed explicitly as whole
unix seconds (the code's `impactAtTime` takes `now` as a parameter for the
same reason); Go maps are embedded as association lists with unique keys;
fallible decoding returns `Except`.
-/

namespace Kawana

/-- Modulus of a 32-bit unsigned integer. -/
def U32_MOD : Nat := 4294967296

/-- Largest 32-bit unsigned value (`math.MaxUint32`). -/
def MAX_U32 : Nat := 4294967295

/-- Modulus of a 16-bit unsigned integer. -/
def U16_MOD : Nat := 65536

/-- Embeds `ImpactAmount.add` from ipdata.go: saturating addition of two
impact amounts (Go `uint32`, embedded as `Nat`), clamped at `MaxUint32`. -/
def ImpactAmount.add (a b : Nat) : Nat :=
  if a + b > MAX_U32 then MAX_U32 else a + b

/-- Embeds `ImpactAmount.sub` from ipdata.go: saturating subtraction, clamped at 0. -/
def ImpactAmount.sub (a b : Nat) : Nat :=
  if b ≥ a then 0 else a - b

/-- Embeds ipdata.go's `max`: the larger of two impact amounts. -/
def maxImpact (a b : Nat) : Nat :=
  if a > b then a else b

/-- Go's `ImpactAmounts`: one impact amount (`uint32`) per time window. -/
structure ImpactAmounts where
  fiveMin : Nat
  hour : Nat
  day : Nat
deriving DecidableEq, Repr

/-- Go's `StartTimes`: one window-bucket start (unix seconds, u32) per window. -/
structure StartTimes where
  fiveMin : Nat
  hour : Nat
  day : Nat
deriving DecidableEq, Repr

/-- Go's `IPData` record (the mutex is concurrency plumbing and has no data content). -/
structure IPData where
  curImpacts : ImpactAmounts
  maxImpacts : ImpactAmounts
  startTimes : StartTimes
  forgiven : Nat
  blackWhite : Nat
deriving DecidableEq, Repr

/-- The zero `ImpactAmounts`. -/
def zeroImpacts : ImpactAmounts := ⟨0, 0, 0⟩

/-- A freshly created (all-zero) `IPData`, as produced by Go's `new(IPData)`. -/
def zeroIPData : IPData := ⟨zeroImpacts, zeroImpacts, ⟨0, 0, 0⟩, 0, 0⟩

/-- Go's `BWModifier` (an `int`). -/
abbrev BWModifier := Int

/-- `BWNop` constant from datastore.go. -/
def BWNop : BWModifier := 0

/-- `BWWhitelist` constant from datastore.go. -/
def BWWhitelist : BWModifier := 1

/-- `BWUnWhitelist` constant from datastore.go. -/
def BWUnWhitelist : BWModifier := 2

/-- `BWBlacklist` constant from datastore.go. -/
def BWBlacklist : BWModifier := 3

/-- `BWUnBlacklist` constant from datastore.go. -/
def BWUnBlacklist : BWModifier := 4

/-- Embeds the `blackWhite` method of ipdata.go as a function on the flag byte.
The Go method returns an error on an unknown modifier and leaves the byte
unchanged; the error is only logged by the caller, so the unknown case is
embedded as the identity. -/
def blackWhite (m : BWModifier) (flags : Nat) : Nat :=
  if m = BWWhitelist then flags ||| 0x01
  else if m = BWUnWhitelist then flags &&& 0xFE
  else if m = BWBlacklist then flags ||| 0x02
  else if m = BWUnBlacklist then flags &&& 0xFD
  else flags

/-- Window length of the five-minute window, in seconds. -/
def FIVE_MIN : Nat := 300

/-- Window length of the one-hour window, in seconds. -/
def ONE_HOUR : Nat := 3600

/-- Window length of the one-day window, in seconds. -/
def ONE_DAY : Nat := 86400

/-- Embeds `impactAtTime` from ipdata.go. `now` is the wall clock in whole
unix seconds; `now.After(time.Unix(start,0).Add(L))` becomes `now > start + L`
and `uint32(now.Unix())` becomes `now % U32_MOD`. -/
def impactAtTime (data : IPData) (impact : Nat) (bw : BWModifier) (now : Nat) : IPData :=
  let d := if bw ≠ BWNop then { data with blackWhite := blackWhite bw data.blackWhite } else data
  if impact = 0 then d
  else
    let cur5 := if now > d.startTimes.fiveMin + FIVE_MIN then impact
                else ImpactAmount.add d.curImpacts.fiveMin impact
    let st5 := if now > d.startTimes.fiveMin + FIVE_MIN then now % U32_MOD
               else d.startTimes.fiveMin
    let max5 := maxImpact cur5 d.maxImpacts.fiveMin
    let curH := if now > d.startTimes.hour + ONE_HOUR then impact
                else ImpactAmount.add d.curImpacts.hour impact
    let stH := if now > d.startTimes.hour + ONE_HOUR then now % U32_MOD
               else d.startTimes.hour
    let maxH := maxImpact curH d.maxImpacts.hour
    let curD := if now > d.startTimes.day + ONE_DAY then impact
                else ImpactAmount.add d.curImpacts.day impact
    let stD := if now > d.startTimes.day + ONE_DAY then now % U32_MOD
               else d.startTimes.day
    let maxD := maxImpact curD d.maxImpacts.day
    { d with curImpacts := ⟨cur5, curH, curD⟩
           , maxImpacts := ⟨max5, maxH, maxD⟩
           , startTimes := ⟨st5, stH, stD⟩ }

/-- Embeds `forgive` from ipdata.go: per window, `maximum := maximum.sub t`,
then `current := maximum`; `Forgiven++` on a Go `uint16` wraps modulo 2^16. -/
def forgive (data : IPData) (t : ImpactAmounts) : IPData :=
  let m5 := ImpactAmount.sub data.maxImpacts.fiveMin t.fiveMin
  let mh := ImpactAmount.sub data.maxImpacts.hour t.hour
  let md := ImpactAmount.sub data.maxImpacts.day t.day
  { data with maxImpacts := ⟨m5, mh, md⟩
            , curImpacts := ⟨m5, mh, md⟩
            , forgiven := (data.forgiven + 1) % U16_MOD }

/-- Spec-side saturating addition, following §3 of the spec: `add` clamps at `2^32 − 1`. -/
def saturatingAdd (a b : Nat) : Nat := if a + b ≤ MAX_U32 then a + b else MAX_U32

/-- Spec-side `max(a, b)`: the larger of the two arguments. -/
def specMax (a b : Nat) : Nat := if a ≤ b then b else a

/-- Spec-side description of the impact operation, following the spec's §4.1
wording: first apply the modifier when it is not nop (even when amount = 0);
then, if amount = 0, change nothing else; otherwise, for each window w with
length L_w, if now is strictly after starts[w] + L_w set starts[w] to now in
unix seconds and current[w] = amount, else current[w] =
saturating_add(current[w], amount); in both cases maximum[w] becomes
max(maximum[w], current[w]). -/
def impactSpec (data : IPData) (amount : Nat) (m : BWModifier) (now : Nat) : IPData :=
  let d := if m ≠ BWNop then { data with blackWhite := blackWhite m data.blackWhite } else data
  if amount = 0 then d
  else
    let c5 := if now > d.startTimes.fiveMin + FIVE_MIN then amount
              else saturatingAdd d.curImpacts.fiveMin amount
    let s5 := if now > d.startTimes.fiveMin + FIVE_MIN then now % U32_MOD
              else d.startTimes.fiveMin
    let x5 := specMax d.maxImpacts.fiveMin c5
    let ch := if now > d.startTimes.hour + ONE_HOUR then amount
              else saturatingAdd d.curImpacts.hour amount
    let sh := if now > d.startTimes.hour + ONE_HOUR then now % U32_MOD
              else d.startTimes.hour
    let xh := specMax d.maxImpacts.hour ch
    let cd := if now > d.startTimes.day + ONE_DAY then amount
              else saturatingAdd d.curImpacts.day amount
    let sd := if now > d.startTimes.day + ONE_DAY then now % U32_MOD
              else d.startTimes.day
    let xd := specMax d.maxImpacts.day cd
    { d with curImpacts := ⟨c5, ch, cd⟩
           , maxImpacts := ⟨x5, xh, xd⟩
           , startTimes := ⟨s5, sh, sd⟩ }

/-- Go's `IPDataMap` (`map[IPLong]*IPData`), embedded as an association list
with unique keys; the IP key (`IPLong`, a `uint32`) is embedded as `Nat`. -/
abbrev IPDataMap := List (Nat × IPData)

/-- Looks an IP up in an embedded map (first matching key). -/
def lookupIP (ip : Nat) : IPDataMap → Option IPData
  | [] => none
  | (k, v) :: t => if k = ip then some v else lookupIP ip t

/-- Map update: replaces the record at `ip` in place, or appends a new entry. -/
def insertIP (ip : Nat) (d : IPData) : IPDataMap → IPDataMap
  | [] => [(ip, d)]
  | (k, v) :: t => if k = ip then (ip, d) :: t else (k, v) :: insertIP ip d t

/-- Map deletion: removes the entry at `ip` (the first matching key). -/
def eraseIP (ip : Nat) : IPDataMap → IPDataMap
  | [] => []
  | (k, v) :: t => if k = ip then t else (k, v) :: eraseIP ip t

/-- The key list of an embedded map, in entry order (Go's `getIPs`). -/
def keysOf (m : IPDataMap) : List Nat := m.map Prod.fst

/-- The overlay controller state (wal.go's `walInactive`/`walWriting`/`walDraining`;
the spec calls them Idle, Writing, Draining). -/
inductive WalState where
  | inactive
  | writing
  | draining
deriving DecidableEq, Repr

/-- The data store: primary map, overlay (WAL) map, and controller state
(datastore.go's `IPDataStore` together with wal.go's `ipWAL`). -/
structure Store where
  primary : IPDataMap
  wal : IPDataMap
  walState : WalState
deriving DecidableEq, Repr

/-- Embeds `ipStoreUpdate` from datastore.go: if the IP exists, updates its record
in place and returns it with `true`; otherwise returns a zero record and `false`. -/
def ipStoreUpdate (m : IPDataMap) (ip : Nat) (impact : Nat) (bw : BWModifier)
    (now : Nat) : (IPData × Bool) × IPDataMap :=
  match lookupIP ip m with
  | none => ((zeroIPData, false), m)
  | some d =>
      let d2 := impactAtTime d impact bw now
      ((d2, true), insertIP ip d2 m)

/-- Embeds `ipStoreInsert` from datastore.go: creates the record if absent,
applies the impact, and stores the result. -/
def ipStoreInsert (m : IPDataMap) (ip : Nat) (impact : Nat) (bw : BWModifier)
    (now : Nat) : IPData × IPDataMap :=
  let d := (lookupIP ip m).getD zeroIPData
  let d2 := impactAtTime d impact bw now
  (d2, insertIP ip d2 m)

/-- Embeds `ipStoreForgive` from datastore.go: if the IP exists, forgives it in
place and returns it with `true`; otherwise returns a zero record and `false`. -/
def ipStoreForgive (m : IPDataMap) (ip : Nat) (t : ImpactAmounts) :
    (IPData × Bool) × IPDataMap :=
  match lookupIP ip m with
  | none => ((zeroIPData, false), m)
  | some d =>
      let d2 := forgive d t
      ((d2, true), insertIP ip d2 m)

/-- Embeds `copyIPData` from datastore.go: copies `ip`'s record from `src` into
`dst` unless `dst` already has one or `src` has none; returns the new `dst`. -/
def copyIPData (dst src : IPDataMap) (ip : Nat) : IPDataMap :=
  if (lookupIP ip dst).isSome then dst
  else
    match lookupIP ip src with
    | none => dst
    | some d => insertIP ip d dst

/-- Embeds `LogIP` from datastore.go: routes the impact through the primary or
the overlay according to the controller state, returning the updated record
by value and the new store. -/
def LogIP (s : Store) (ip : Nat) (impact : Nat) (bw : BWModifier)
    (now : Nat) : IPData × Store :=
  match s.walState with
  | .writing =>
      let wal1 := copyIPData s.wal s.primary ip
      let ((d, exists1), wal2) := ipStoreUpdate wal1 ip impact bw now
      if exists1 then (d, { s with wal := wal2 })
      else
        let (d2, wal3) := ipStoreInsert wal1 ip impact bw now
        (d2, { s with wal := wal3 })
  | .draining =>
      let ((d, exists1), wal2) := ipStoreUpdate s.wal ip impact bw now
      if exists1 then (d, { s with wal := wal2 })
      else
        let ((d2, exists2), p2) := ipStoreUpdate s.primary ip impact bw now
        if exists2 then (d2, { s with primary := p2 })
        else
          let (d3, p3) := ipStoreInsert s.primary ip impact bw now
          (d3, { s with primary := p3 })
  | .inactive =>
      let ((d, exists1), p2) := ipStoreUpdate s.primary ip impact bw now
      if exists1 then (d, { s with primary := p2 })
      else
        let (d2, p3) := ipStoreInsert s.primary ip impact bw now
        (d2, { s with primary := p3 })

/-- Embeds `ForgiveIP` from datastore.go: routes the forgive through the primary
or the overlay according to the controller state. -/
def ForgiveIP (s : Store) (ip : Nat) (t : ImpactAmounts) : IPData × Store :=
  match s.walState with
  | .writing =>
      let wal1 := copyIPData s.wal s.primary ip
      let ((d, _), wal2) := ipStoreForgive wal1 ip t
      (d, { s with wal := wal2 })
  | .draining =>
      let ((d, exists1), wal2) := ipStoreForgive s.wal ip t
      if exists1 then (d, { s with wal := wal2 })
      else
        let ((d2, _), p2) := ipStoreForgive s.primary ip t
        (d2, { s with primary := p2 })
  | .inactive =>
      let ((d, _), p2) := ipStoreForgive s.primary ip t
      (d, { s with primary := p2 })

/-- Embeds `setWALStatus` from datastore.go. -/
def setWALStatus (s : Store) (st : WalState) : Store := { s with walState := st }

/-- Embeds `moveIPData` from datastore.go: transfers `ip`'s record from the
source map to the destination map (drain always calls it on a present key). -/
def moveIPData (dst src : IPDataMap) (ip : Nat) : IPDataMap × IPDataMap :=
  match lookupIP ip src with
  | some d => (insertIP ip d dst, eraseIP ip src)
  | none => (dst, src)

/-- Embeds `drainWAL` from datastore.go: snapshots the overlay's key list, then
moves every overlay entry into the primary. -/
def drainWAL (s : Store) : Store :=
  (keysOf s.wal).foldl
    (fun st ip =>
      let pw := moveIPData st.primary st.wal ip
      { st with primary := pw.1, wal := pw.2 })
    s

/-- Embeds `Persist` from datastore.go. The file write is external I/O, so its
outcome is the parameter `werr` (`true` means the encode or write step failed);
`Persist` returns the final store, the reported error, and the controller
states that were set, in order. -/
def Persist (s : Store) (werr : Bool) : Store × Bool × List WalState :=
  let s1 := setWALStatus s .writing
  let s2 := setWALStatus s1 .draining
  let s3 := drainWAL s2
  let s4 := setWALStatus s3 .inactive
  (s4, werr, [s1.walState, s2.walState, s4.walState])

/-- The snapshot format version (`encodingVersion`). -/
def encodingVersion : Nat := 1

/-- Little-endian bytes of a 32-bit value (`binary.LittleEndian.PutUint32`
after the Go `uint32(..)` cast, which truncates to 32 bits). -/
def u32le (x : Nat) : List Nat :=
  [x % 256, x / 256 % 256, x / 65536 % 256, x / 16777216 % 256]

/-- Little-endian bytes of a 16-bit value (`binary.LittleEndian.PutUint16`
after the Go `uint16(..)` cast). -/
def u16le (x : Nat) : List Nat := [x % 256, x / 256 % 256]

/-- Little-endian 32-bit read (`binary.LittleEndian.Uint32`). -/
def le4 (b0 b1 b2 b3 : Nat) : Nat := b0 + 256 * b1 + 65536 * b2 + 16777216 * b3

/-- Little-endian 16-bit read (`binary.LittleEndian.Uint16`). -/
def le2 (b0 b1 : Nat) : Nat := b0 + 256 * b1

/-- The 43-byte record the encoder's loop body packs for one map entry
(encoder.go's `encode`, bytes 0..42). -/
def encodeRecord (ip : Nat) (d : IPData) : List Nat :=
  u32le ip ++
  u32le d.curImpacts.fiveMin ++ u32le d.curImpacts.hour ++ u32le d.curImpacts.day ++
  u32le d.maxImpacts.fiveMin ++ u32le d.maxImpacts.hour ++ u32le d.maxImpacts.day ++
  u32le d.startTimes.fiveMin ++ u32le d.startTimes.hour ++ u32le d.startTimes.day ++
  u16le d.forgiven ++ [d.blackWhite]

/-- The concatenated record bytes of a map, in entry order (the encoder's
`for ip, ipData := range store.m` loop). -/
def encodeBody : IPDataMap → List Nat
  | [] => []
  | (ip, d) :: t => encodeRecord ip d ++ encodeBody t

/-- Embeds the snapshot encoder (`encode`): 4-byte version header, then one
43-byte record per map entry. -/
def encode (m : IPDataMap) : List Nat := u32le encodingVersion ++ encodeBody m

/-- Decoder errors. `eof` is Go's `io.EOF` on an empty input;
`unexpectedEOF` is `io.ErrUnexpectedEOF` from `io.ReadFull` when the input
ends partway through the header or a record; `wrongVersion` is the decoder's
own "Wrong version kdb" error. -/
inductive DecodeErr where
  | eof
  | unexpectedEOF
  | wrongVersion
deriving DecidableEq, Repr

/-- Unpacks one full 43-byte record into an IP and its `IPData`
(the body of the decoder's `FileLoop` in decoder.go's `DecodeEvery`). -/
def parseRecord : List Nat → Nat × IPData
  | b0 :: b1 :: b2 :: b3 :: b4 :: b5 :: b6 :: b7 :: b8 :: b9 :: b10 :: b11 ::
    b12 :: b13 :: b14 :: b15 :: b16 :: b17 :: b18 :: b19 :: b20 :: b21 ::
    b22 :: b23 :: b24 :: b25 :: b26 :: b27 :: b28 :: b29 :: b30 :: b31 ::
    b32 :: b33 :: b34 :: b35 :: b36 :: b37 :: b38 :: b39 :: b40 :: b41 ::
    b42 :: [] =>
      (le4 b0 b1 b2 b3,
       { curImpacts := ⟨le4 b4 b5 b6 b7, le4 b8 b9 b10 b11, le4 b12 b13 b14 b15⟩
       , maxImpacts := ⟨le4 b16 b17 b18 b19, le4 b20 b21 b22 b23, le4 b24 b25 b26 b27⟩
       , startTimes := ⟨le4 b28 b29 b30 b31, le4 b32 b33 b34 b35, le4 b36 b37 b38 b39⟩
       , forgiven := le2 b40 b41
       , blackWhite := b42 })
  | _ => (0, zeroIPData)

/-- The decoder's record loop: `io.ReadFull` of 43 bytes returns `io.EOF` at
a clean record boundary (loop ends), `io.ErrUnexpectedEOF` on a partial
record (error), and otherwise a full record, which is accumulated. -/
def decodeLoop (bs : List Nat) (acc : IPDataMap) : Except DecodeErr IPDataMap :=
  if bs.length = 0 then .ok acc.reverse
  else if bs.length < 43 then .error .unexpectedEOF
  else decodeLoop (bs.drop 43) (parseRecord (bs.take 43) :: acc)
termination_by bs.length
decreasing_by simp; omega

/-- Embeds the snapshot decoder (decoder.go's `Decode` via `DecodeEvery`):
reads the 4-byte version header with `io.ReadFull` (EOF on empty input,
unexpected EOF on a 1–3 byte input), rejects a version other than
`encodingVersion`, then reads 43-byte records until clean EOF. Entries are
returned in read order; `Decode`'s callback stores each under its IP. -/
def decode : List Nat → Except DecodeErr IPDataMap
  | [] => .error .eof
  | b0 :: b1 :: b2 :: b3 :: rest =>
      if le4 b0 b1 b2 b3 ≠ encodingVersion then .error .wrongVersion
      else decodeLoop rest []
  | _ => .error .unexpectedEOF

/-- The version a byte stream's first four bytes carry (missing bytes read
as zero; only used on inputs that have the full header). -/
def headerVersion (bs : List Nat) : Nat :=
  le4 (bs.getD 0 0) (bs.getD 1 0) (bs.getD 2 0) (bs.getD 3 0)

/-- In-range condition for an `IPData` as the Go field types dictate:
nine `uint32` fields, a `uint16`, and a byte. -/
def WFData (d : IPData) : Prop :=
  d.curImpacts.fiveMin < U32_MOD ∧ d.curImpacts.hour < U32_MOD ∧ d.curImpacts.day < U32_MOD ∧
  d.maxImpacts.fiveMin < U32_MOD ∧ d.maxImpacts.hour < U32_MOD ∧ d.maxImpacts.day < U32_MOD ∧
  d.startTimes.fiveMin < U32_MOD ∧ d.startTimes.hour < U32_MOD ∧ d.startTimes.day < U32_MOD ∧
  d.forgiven < U16_MOD ∧ d.blackWhite < 256

instance (d : IPData) : Decidable (WFData d) := by
  unfold WFData; infer_instance

/-- In-range condition for one map entry: a `uint32` key and in-range fields. -/
def WFEntry (e : Nat × IPData) : Prop := e.1 < U32_MOD ∧ WFData e.2

instance (e : Nat × IPData) : Decidable (WFEntry e) := by
  unfold WFEntry; infer_instance

/-! ## Helper lemmas -/

/-- The source's saturating `add` agrees with the spec's clamped addition. -/
lemma add_eq_saturatingAdd (a b : Nat) :
    ImpactAmount.add a b = saturatingAdd a b := by
  unfold ImpactAmount.add saturatingAdd
  split_ifs <;> omega

/-- The source's `max` is the spec's `max` with the arguments swapped. -/
lemma maxImpact_eq_max (a b : Nat) : maxImpact a b = specMax b a := by
  unfold maxImpact specMax
  split <;> split <;> omega

/-- The first argument is below the source's `max`. -/
lemma le_maxImpact_left (a b : Nat) : a ≤ maxImpact a b := by
  unfold maxImpact; split <;> omega

/-- The invariant the spec requires of every record: per window, the maximum
impact dominates the current impact. -/
def MaxGeCur (d : IPData) : Prop :=
  d.curImpacts.fiveMin ≤ d.maxImpacts.fiveMin ∧
  d.curImpacts.hour ≤ d.maxImpacts.hour ∧
  d.curImpacts.day ≤ d.maxImpacts.day

instance (d : IPData) : Decidable (MaxGeCur d) := by
  unfold MaxGeCur; infer_instance

/-! ## C1: maximum dominates current, preserved by every operation -/

/-- C1. A fresh zero record satisfies `maximum[w] ≥ current[w]`, and both
`impactAtTime` (any amount, modifier, time) and `forgive` (any triple)
preserve the invariant. -/
theorem maxGeCur_invariant :
    MaxGeCur zeroIPData ∧
    ∀ d : IPData, MaxGeCur d →
      (∀ a bw now, MaxGeCur (impactAtTime d a bw now)) ∧
      (∀ t, MaxGeCur (forgive d t)) := by
  refine ⟨by decide, fun d hd => ⟨fun a bw now => ?_, fun t => ?_⟩⟩
  · unfold impactAtTime
    by_cases ha : a = 0
    · simp only [ha, if_pos rfl, if_true]
      split <;> simpa [MaxGeCur] using hd
    · simp only [ha, if_neg ha, ite_false]
      split <;> exact ⟨le_maxImpact_left _ _, le_maxImpact_left _ _, le_maxImpact_left _ _⟩
  · unfold forgive
    exact ⟨le_refl _, le_refl _, le_refl _⟩

/-- Closed instance of `maxGeCur_invariant` at a concrete record. -/
theorem maxGeCur_invariant_witness :
    MaxGeCur (impactAtTime ⟨⟨1, 2, 3⟩, ⟨4, 5, 6⟩, ⟨10, 10, 10⟩, 0, 0⟩ 7 BWWhitelist 1000) ∧
    MaxGeCur (forgive ⟨⟨1, 2, 3⟩, ⟨4, 5, 6⟩, ⟨10, 10, 10⟩, 0, 0⟩ ⟨9, 9, 9⟩) :=
  ⟨(maxGeCur_invariant.2 ⟨⟨1, 2, 3⟩, ⟨4, 5, 6⟩, ⟨10, 10, 10⟩, 0, 0⟩ (by decide)).1 7 BWWhitelist 1000,
   (maxGeCur_invariant.2 ⟨⟨1, 2, 3⟩, ⟨4, 5, 6⟩, ⟨10, 10, 10⟩, 0, 0⟩ (by decide)).2 ⟨9, 9, 9⟩⟩

/-! ## C2: impactAtTime matches the spec's description -/

/-- C2. `impactAtTime` agrees with the spec's description of the impact
operation: apply the modifier first when it is not nop (even when the amount
is 0); stop there when the amount is 0; otherwise per window either start a
fresh bucket at `now` with `current = amount` (when `now` is strictly after
`start + L`) or saturating-add into the current amount, and in both cases
raise the maximum to `max(maximum, current)`. -/
theorem impactAtTime_eq_impactSpec (d : IPData) (a : Nat) (m : BWModifier) (now : Nat) :
    impactAtTime d a m now = impactSpec d a m now := by
  unfold impactAtTime impactSpec
  simp only [add_eq_saturatingAdd, maxImpact_eq_max]

/-! ## C3: forgive's field-by-field effect -/

/-- C3 as literally stated fails: on a record whose 16-bit forgiven counter
is 65535, `forgive` wraps the counter to 0 rather than incrementing it to
65536. -/
theorem forgive_increment_cex :
    (forgive ⟨⟨3, 3, 3⟩, ⟨9, 9, 9⟩, ⟨0, 0, 0⟩, 65535, 0⟩ ⟨2, 2, 2⟩).forgiven ≠ 65535 + 1 := by
  decide

/-- C3 (amended). `forgive t` sets each window's maximum to
`saturating_sub(maximum, t[w])`, copies the new maximum into current,
increments the forgiven counter by 1 modulo 2^16 (wrapping to 0 from 65535),
and leaves the flag byte and start times unchanged; when `t ≤ maximum`
componentwise, the new maximum is exactly `maximum − t`. -/
theorem forgive_spec (d : IPData) (t : ImpactAmounts) :
    (forgive d t).maxImpacts =
      ⟨ImpactAmount.sub d.maxImpacts.fiveMin t.fiveMin,
       ImpactAmount.sub d.maxImpacts.hour t.hour,
       ImpactAmount.sub d.maxImpacts.day t.day⟩ ∧
    (forgive d t).curImpacts = (forgive d t).maxImpacts ∧
    (forgive d t).forgiven = (d.forgiven + 1) % U16_MOD ∧
    (forgive d t).blackWhite = d.blackWhite ∧
    (forgive d t).startTimes = d.startTimes ∧
    (t.fiveMin ≤ d.maxImpacts.fiveMin → t.hour ≤ d.maxImpacts.hour →
      t.day ≤ d.maxImpacts.day →
      (forgive d t).maxImpacts =
        ⟨d.maxImpacts.fiveMin - t.fiveMin, d.maxImpacts.hour - t.hour,
         d.maxImpacts.day - t.day⟩) := by
  refine ⟨rfl, rfl, rfl, rfl, rfl, fun h5 hh hd => ?_⟩
  unfold forgive ImpactAmount.sub
  simp only [ImpactAmounts.mk.injEq]
  refine ⟨?_, ?_, ?_⟩ <;> split <;> omega

/-- Closed instance of `forgive_spec` at a concrete record and triple. -/
theorem forgive_spec_witness :
    (forgive ⟨⟨5, 5, 5⟩, ⟨10, 11, 12⟩, ⟨1, 2, 3⟩, 7, 2⟩ ⟨4, 5, 6⟩).maxImpacts = ⟨6, 6, 6⟩ :=
  (forgive_spec ⟨⟨5, 5, 5⟩, ⟨10, 11, 12⟩, ⟨1, 2, 3⟩, 7, 2⟩ ⟨4, 5, 6⟩).2.2.2.2.2
    (by decide) (by decide) (by decide)

/-! ## C8: the forgiven counter is not monotone — the source wraps it -/

/-- C8 failing input. The source's `forgive` increments the 16-bit forgiven
counter with wraparound: a record whose counter is 65535 drops to 0 after one
forgive, contradicting the spec's monotonic non-decrease (the spec itself
flags this wrap as a source bug and mandates saturation). -/
theorem forgiven_wraps_to_zero :
    (⟨⟨0, 0, 0⟩, ⟨100, 100, 100⟩, ⟨0, 0, 0⟩, 65535, 0⟩ : IPData).forgiven = 65535 ∧
    (forgive ⟨⟨0, 0, 0⟩, ⟨100, 100, 100⟩, ⟨0, 0, 0⟩, 65535, 0⟩ ⟨1, 1, 1⟩).forgiven = 0 := by
  decide

/-! ## C9: the flag algebra -/

/-- Bit `i` of an OR is unchanged when the mask has no bit at `i`. -/
lemma testBit_lor_low (b c i : Nat) (h : c < 2 ^ i) :
    (b ||| c).testBit i = b.testBit i := by
  simp [Nat.testBit_lor, Nat.testBit_lt_two_pow h]

/-- Bit `i` of an AND is unchanged when the mask has bit `i` set. -/
lemma testBit_land_high (b c i : Nat) (h : c.testBit i = true) :
    (b &&& c).testBit i = b.testBit i := by
  simp [Nat.testBit_land, h]

/-- C9. The flag algebra: allow ORs in 0x01, un_allow ANDs with 0xFE, deny
ORs in 0x02, un_deny ANDs with 0xFD; every modifier leaves bits 2–7 of the
flag byte unchanged; and any modifier other than these four (including nop)
leaves the whole byte unchanged. -/
theorem blackWhite_algebra (flags : Nat) (m : BWModifier) :
    blackWhite BWWhitelist flags = flags ||| 0x01 ∧
    blackWhite BWUnWhitelist flags = flags &&& 0xFE ∧
    blackWhite BWBlacklist flags = flags ||| 0x02 ∧
    blackWhite BWUnBlacklist flags = flags &&& 0xFD ∧
    (∀ i, 2 ≤ i → i ≤ 7 → (blackWhite m flags).testBit i = flags.testBit i) ∧
    (m ≠ BWWhitelist → m ≠ BWUnWhitelist → m ≠ BWBlacklist → m ≠ BWUnBlacklist →
      blackWhite m flags = flags) := by
  refine ⟨by norm_num [blackWhite, BWWhitelist, BWUnWhitelist, BWBlacklist, BWUnBlacklist],
          by norm_num [blackWhite, BWWhitelist, BWUnWhitelist, BWBlacklist, BWUnBlacklist],
          by norm_num [blackWhite, BWWhitelist, BWUnWhitelist, BWBlacklist, BWUnBlacklist],
          by norm_num [blackWhite, BWWhitelist, BWUnWhitelist, BWBlacklist, BWUnBlacklist],
          fun i h2 h7 => ?_, fun n1 n2 n3 n4 => ?_⟩
  · unfold blackWhite
    split_ifs
    · exact testBit_lor_low _ _ _ (by calc (1:Nat) < 2 ^ 2 := by norm_num
                                        _ ≤ 2 ^ i := Nat.pow_le_pow_right (by norm_num) h2)
    · exact testBit_land_high _ _ _ (by interval_cases i <;> decide)
    · exact testBit_lor_low _ _ _ (by calc (2:Nat) < 2 ^ 2 := by norm_num
                                        _ ≤ 2 ^ i := Nat.pow_le_pow_right (by norm_num) h2)
    · exact testBit_land_high _ _ _ (by interval_cases i <;> decide)
    · rfl
  · unfold blackWhite
    rw [if_neg n1, if_neg n2, if_neg n3, if_neg n4]

/-- Closed instance of `blackWhite_algebra`: an unknown modifier (7) preserves
bit 5 and the whole byte at flag value 171. -/
theorem blackWhite_algebra_witness :
    (blackWhite 7 171).testBit 5 = (171 : Nat).testBit 5 ∧ blackWhite 7 171 = 171 :=
  ⟨(blackWhite_algebra 171 7).2.2.2.2.1 5 (by decide) (by decide),
   (blackWhite_algebra 171 7).2.2.2.2.2 (by decide) (by decide) (by decide) (by decide)⟩

/-! ## Association-list map lemmas -/

lemma lookupIP_insertIP_self (ip : Nat) (d : IPData) (m : IPDataMap) :
    lookupIP ip (insertIP ip d m) = some d := by
  induction m with
  | nil => simp [insertIP, lookupIP]
  | cons e t ih =>
      obtain ⟨k, v⟩ := e
      by_cases hk : k = ip <;> simp [insertIP, lookupIP, hk, ih]

lemma lookupIP_insertIP_ne (ip k : Nat) (d : IPData) (m : IPDataMap) (h : k ≠ ip) :
    lookupIP ip (insertIP k d m) = lookupIP ip m := by
  induction m with
  | nil => simp [insertIP, lookupIP, h]
  | cons e t ih =>
      obtain ⟨k2, v⟩ := e
      by_cases hk : k2 = k
      · subst hk
        simp only [insertIP, if_pos rfl, lookupIP, if_neg h]
      · rw [show insertIP k d ((k2, v) :: t) = (k2, v) :: insertIP k d t from by
              simp [insertIP, hk]]
        by_cases hip : k2 = ip
        · simp only [lookupIP, if_pos hip]
        · simp only [lookupIP, if_neg hip, ih]

lemma insertIP_insertIP (ip : Nat) (d1 d2 : IPData) (m : IPDataMap) :
    insertIP ip d2 (insertIP ip d1 m) = insertIP ip d2 m := by
  induction m with
  | nil => simp [insertIP]
  | cons e t ih =>
      obtain ⟨k, v⟩ := e
      by_cases hk : k = ip <;> simp [insertIP, hk, ih]

lemma lookupIP_eq_none_of_not_mem (ip : Nat) (m : IPDataMap) (h : ip ∉ keysOf m) :
    lookupIP ip m = none := by
  induction m with
  | nil => rfl
  | cons e t ih =>
      obtain ⟨k, v⟩ := e
      simp only [keysOf, List.map_cons, List.mem_cons, not_or] at h
      have hk : k ≠ ip := fun hh => h.1 hh.symm
      simp only [lookupIP, if_neg hk]
      exact ih (by simpa [keysOf] using h.2)

/-! ## C10: ForgiveIP on an IP absent from both maps is a no-op -/

/-- C10. In every controller state, `ForgiveIP` on an IP that is in neither
the primary nor the overlay returns the all-zero record and leaves the whole
store (both maps) unchanged: no record is created. -/
theorem forgiveIP_absent (s : Store) (ip : Nat) (t : ImpactAmounts)
    (hp : lookupIP ip s.primary = none) (hw : lookupIP ip s.wal = none) :
    ForgiveIP s ip t = (zeroIPData, s) := by
  obtain ⟨p, w, st⟩ := s
  simp only at hp hw
  cases st <;> simp [ForgiveIP, ipStoreForgive, copyIPData, hp, hw]

/-- Closed instance of `forgiveIP_absent` on a one-entry store in each state. -/
theorem forgiveIP_absent_witness :
    ForgiveIP ⟨[(1, zeroIPData)], [], .inactive⟩ 2 ⟨1, 1, 1⟩ =
      (zeroIPData, ⟨[(1, zeroIPData)], [], .inactive⟩) ∧
    ForgiveIP ⟨[(1, zeroIPData)], [], .writing⟩ 2 ⟨1, 1, 1⟩ =
      (zeroIPData, ⟨[(1, zeroIPData)], [], .writing⟩) ∧
    ForgiveIP ⟨[(1, zeroIPData)], [], .draining⟩ 2 ⟨1, 1, 1⟩ =
      (zeroIPData, ⟨[(1, zeroIPData)], [], .draining⟩) :=
  ⟨forgiveIP_absent _ 2 _ rfl rfl, forgiveIP_absent _ 2 _ rfl rfl,
   forgiveIP_absent _ 2 _ rfl rfl⟩

/-! ## C4: write routing while the controller is Writing -/

/-- C4 as literally stated fails: in the Writing state, a `ForgiveIP` whose
IP is absent from the primary does not create the IP in the overlay — the
resulting overlay still has no entry for it. -/
theorem writing_forgive_no_create :
    lookupIP 5 (ForgiveIP ⟨[], [], .writing⟩ 5 ⟨1, 2, 3⟩).2.wal = none := by
  rfl

/-- C4 (amended). While the controller is Writing, `LogIP` and `ForgiveIP`
leave the primary map (hence the targeted IP's primary record) unchanged.
An IP already in the overlay is updated there; an IP present in the primary
but not in the overlay is copied from primary to overlay and the copy is
updated there; an IP absent from both maps is created directly in the
overlay by `LogIP`, while `ForgiveIP` changes neither map and creates
nothing. -/
theorem writing_routing (s : Store) (ip : Nat) (a : Nat) (bw : BWModifier)
    (now : Nat) (t : ImpactAmounts) (hW : s.walState = .writing) :
    (LogIP s ip a bw now).2.primary = s.primary ∧
    (ForgiveIP s ip t).2.primary = s.primary ∧
    (∀ d0, lookupIP ip s.wal = some d0 →
      (LogIP s ip a bw now).2.wal = insertIP ip (impactAtTime d0 a bw now) s.wal ∧
      (ForgiveIP s ip t).2.wal = insertIP ip (forgive d0 t) s.wal) ∧
    (lookupIP ip s.wal = none → ∀ dp, lookupIP ip s.primary = some dp →
      (LogIP s ip a bw now).2.wal = insertIP ip (impactAtTime dp a bw now) s.wal ∧
      (ForgiveIP s ip t).2.wal = insertIP ip (forgive dp t) s.wal) ∧
    (lookupIP ip s.wal = none → lookupIP ip s.primary = none →
      (LogIP s ip a bw now).2.wal = insertIP ip (impactAtTime zeroIPData a bw now) s.wal ∧
      (ForgiveIP s ip t).2 = s) := by
  obtain ⟨p, w, st⟩ := s
  simp only at hW
  subst hW
  refine ⟨?_, ?_, fun d0 h0 => ⟨?_, ?_⟩, fun hw dp hp => ⟨?_, ?_⟩, fun hw hp => ⟨?_, ?_⟩⟩
  · simp [LogIP, copyIPData, ipStoreUpdate, ipStoreInsert]
    split <;> split <;> simp
  · simp [ForgiveIP, copyIPData, ipStoreForgive]
  · simp only at h0
    simp [LogIP, copyIPData, ipStoreUpdate, h0]
  · simp only at h0
    simp [ForgiveIP, copyIPData, ipStoreForgive, h0]
  · simp only at hw hp
    simp [LogIP, copyIPData, ipStoreUpdate, hw, hp, lookupIP_insertIP_self,
          insertIP_insertIP]
  · simp only at hw hp
    simp [ForgiveIP, copyIPData, ipStoreForgive, hw, hp, lookupIP_insertIP_self,
          insertIP_insertIP]
  · simp only at hw hp
    simp [LogIP, copyIPData, ipStoreUpdate, ipStoreInsert, hw, hp]
  · simp only at hw hp
    simp [ForgiveIP, copyIPData, ipStoreForgive, hw, hp]

/-- Closed instance of `writing_routing` for an IP present only in the primary. -/
theorem writing_routing_witness :
    (LogIP ⟨[(1, zeroIPData)], [], .writing⟩ 1 4 0 50).2.wal =
      insertIP 1 (impactAtTime zeroIPData 4 0 50) [] ∧
    (ForgiveIP ⟨[(1, zeroIPData)], [], .writing⟩ 1 ⟨1, 1, 1⟩).2.wal =
      insertIP 1 (forgive zeroIPData ⟨1, 1, 1⟩) [] :=
  (writing_routing ⟨[(1, zeroIPData)], [], .writing⟩ 1 4 0 50 ⟨1, 1, 1⟩ rfl).2.2.2.1
    rfl zeroIPData rfl

/-! ## C6: Persist always reaches Idle with a drained overlay -/

/-- Core drain lemma: `drainWAL` empties the overlay, preserves the
controller state, moves every overlay record into the primary, and leaves
primary entries without an overlay shadow untouched. -/
lemma drainWAL_spec : ∀ (w p : IPDataMap) (st : WalState), (keysOf w).Nodup →
    (drainWAL ⟨p, w, st⟩).wal = [] ∧ (drainWAL ⟨p, w, st⟩).walState = st ∧
    (∀ ip d, lookupIP ip w = some d → lookupIP ip (drainWAL ⟨p, w, st⟩).primary = some d) ∧
    (∀ ip, lookupIP ip w = none → lookupIP ip (drainWAL ⟨p, w, st⟩).primary = lookupIP ip p) := by
  intro w
  induction w with
  | nil =>
      intro p st _
      refine ⟨rfl, rfl, fun ip d h => by simp [lookupIP] at h, fun ip h => rfl⟩
  | cons e t ih =>
      obtain ⟨k, v⟩ := e
      intro p st hnd
      simp only [keysOf, List.map_cons, List.nodup_cons] at hnd
      have hstep : drainWAL ⟨p, (k, v) :: t, st⟩ = drainWAL ⟨insertIP k v p, t, st⟩ := by
        unfold drainWAL
        simp [keysOf, moveIPData, lookupIP, eraseIP]
      have iht := ih (insertIP k v p) st (by simpa [keysOf] using hnd.2)
      have hkt : lookupIP k t = none :=
        lookupIP_eq_none_of_not_mem k t (by simpa [keysOf] using hnd.1)
      rw [hstep]
      refine ⟨iht.1, iht.2.1, fun ip d h => ?_, fun ip h => ?_⟩
      · rcases eq_or_ne ip k with rfl | hne
        · simp only [lookupIP, if_pos rfl] at h
          injection h with h2
          subst h2
          rw [iht.2.2.2 ip hkt, lookupIP_insertIP_self]
        · simp only [lookupIP, if_neg (Ne.symm hne)] at h
          exact iht.2.2.1 ip d h
      · simp only [lookupIP] at h
        rcases eq_or_ne ip k with rfl | hne
        · rw [if_pos rfl] at h
          exact absurd h (by simp)
        · rw [if_neg (Ne.symm hne)] at h
          rw [iht.2.2.2 ip h, lookupIP_insertIP_ne ip k v p (Ne.symm hne)]

/-- C6. Every `Persist` call — also one whose encode or file-write step
failed — sets the controller to Writing, then Draining, then Idle, reports
the write outcome unchanged, and on return the controller is Idle, the
overlay is empty, and every record that was in the overlay is in the primary
under its IP. -/
theorem persist_spec (s : Store) (werr : Bool) (h : (keysOf s.wal).Nodup) :
    (Persist s werr).2.2 = [.writing, .draining, .inactive] ∧
    (Persist s werr).2.1 = werr ∧
    (Persist s werr).1.walState = .inactive ∧
    (Persist s werr).1.wal = [] ∧
    ∀ ip d, lookupIP ip s.wal = some d → lookupIP ip (Persist s werr).1.primary = some d := by
  obtain ⟨p, w, st⟩ := s
  simp only [keysOf] at h
  have hd := drainWAL_spec w p .draining (by simpa [keysOf] using h)
  refine ⟨rfl, rfl, rfl, ?_, fun ip d hip => ?_⟩
  · show (setWALStatus (drainWAL ⟨p, w, .draining⟩) .inactive).wal = []
    simpa [setWALStatus] using hd.1
  · show lookupIP ip (setWALStatus (drainWAL ⟨p, w, .draining⟩) .inactive).primary = some d
    simpa [setWALStatus] using hd.2.2.1 ip d hip

/-- Closed instance of `persist_spec` on a store with a two-entry overlay and
a failed write. -/
theorem persist_spec_witness :
    (Persist ⟨[], [(2, zeroIPData)], .inactive⟩ true).1.wal = [] ∧
    lookupIP 2 (Persist ⟨[], [(2, zeroIPData)], .inactive⟩ true).1.primary = some zeroIPData :=
  ⟨(persist_spec ⟨[], [(2, zeroIPData)], .inactive⟩ true (by decide)).2.2.2.1,
   (persist_spec ⟨[], [(2, zeroIPData)], .inactive⟩ true (by decide)).2.2.2.2 2 zeroIPData rfl⟩

/-! ## Codec lemmas -/

lemma encodeRecord_length (ip : Nat) (d : IPData) : (encodeRecord ip d).length = 43 := by
  simp [encodeRecord, u32le, u16le]

lemma parseRecord_encodeRecord (ip : Nat) (d : IPData) (h : WFEntry (ip, d)) :
    parseRecord (encodeRecord ip d) = (ip, d) := by
  obtain ⟨hip, hd⟩ := h
  obtain ⟨⟨c5, ch, cd⟩, ⟨m5, mh, md⟩, ⟨s5, sh, sd⟩, f, bwv⟩ := d
  unfold WFData at hd
  simp only [U32_MOD, U16_MOD] at hip hd
  simp only [encodeRecord, u32le, u16le, List.cons_append, List.nil_append,
             parseRecord, le4, le2, Prod.mk.injEq, IPData.mk.injEq,
             ImpactAmounts.mk.injEq, StartTimes.mk.injEq, and_true]
  and_intros <;> omega

lemma decodeLoop_encodeRecord_append (ip : Nat) (d : IPData) (rest : List Nat)
    (acc : IPDataMap) (h : WFEntry (ip, d)) :
    decodeLoop (encodeRecord ip d ++ rest) acc = decodeLoop rest ((ip, d) :: acc) := by
  have hlen : (encodeRecord ip d ++ rest).length = 43 + rest.length := by
    simp [encodeRecord_length]
  have htake : (encodeRecord ip d ++ rest).take 43 = encodeRecord ip d := by
    rw [← encodeRecord_length ip d]
    exact List.take_left _ _
  have hdrop : (encodeRecord ip d ++ rest).drop 43 = rest := by
    rw [← encodeRecord_length ip d]
    exact List.drop_left _ _
  rw [decodeLoop, if_neg (by omega), if_neg (by omega), htake, hdrop,
      parseRecord_encodeRecord ip d h]

lemma decodeLoop_encodeBody : ∀ (m : IPDataMap) (acc : IPDataMap),
    (∀ e ∈ m, WFEntry e) → decodeLoop (encodeBody m) acc = .ok (acc.reverse ++ m) := by
  intro m
  induction m with
  | nil =>
      intro acc _
      rw [encodeBody, decodeLoop]
      simp
  | cons e t ih =>
      obtain ⟨ip, d⟩ := e
      intro acc hwf
      rw [encodeBody, decodeLoop_encodeRecord_append ip d _ acc (hwf _ (by simp)),
          ih ((ip, d) :: acc) (fun e he => hwf e (by simp [he]))]
      simp

/-! ## C5: the snapshot codec round-trips every map -/

/-- C5. Encoding any finite map of in-range records with the snapshot encoder
and decoding the bytes with the snapshot decoder returns exactly the source
map: same entries in the same order, every record field-for-field equal
(current triple, maximum triple, start times, forgiven, flags). -/
theorem decode_encode_roundtrip (m : IPDataMap) (h : ∀ e ∈ m, WFEntry e) :
    decode (encode m) = .ok m := by
  have hhd : encode m = 1 :: 0 :: 0 :: 0 :: encodeBody m := by
    simp [encode, u32le, encodingVersion]
  rw [hhd, decode, if_neg (by norm_num [le4, encodingVersion]),
      decodeLoop_encodeBody m [] h]
  rfl

/-- Closed instance of `decode_encode_roundtrip` on a two-entry map with
nonzero fields. -/
theorem decode_encode_roundtrip_witness :
    decode (encode [(1, ⟨⟨1, 2, 3⟩, ⟨4, 5, 6⟩, ⟨7, 8, 9⟩, 10, 11⟩), (2, zeroIPData)]) =
      .ok [(1, ⟨⟨1, 2, 3⟩, ⟨4, 5, 6⟩, ⟨7, 8, 9⟩, 10, 11⟩), (2, zeroIPData)] :=
  decode_encode_roundtrip _ (by decide)

/-! ## C7: exactly the failure conditions of the decoder -/

lemma decodeLoop_mod : ∀ (n : Nat) (bs : List Nat) (acc : IPDataMap), bs.length ≤ n →
    ((bs.length % 43 = 0 → ∃ r, decodeLoop bs acc = .ok r) ∧
     (bs.length % 43 ≠ 0 → decodeLoop bs acc = .error .unexpectedEOF)) := by
  intro n
  induction n with
  | zero =>
      intro bs acc hle
      have hb : bs.length = 0 := by omega
      refine ⟨fun _ => ⟨acc.reverse, ?_⟩, fun hne => absurd (by omega) hne⟩
      rw [decodeLoop, if_pos hb]
  | succ n ih =>
      intro bs acc hle
      by_cases h0 : bs.length = 0
      · refine ⟨fun _ => ⟨acc.reverse, ?_⟩, fun hne => absurd (by omega) hne⟩
        rw [decodeLoop, if_pos h0]
      · by_cases hlt : bs.length < 43
        · refine ⟨fun hm => absurd hm (by omega), fun _ => ?_⟩
          rw [decodeLoop, if_neg h0, if_pos hlt]
        · have hstep : decodeLoop bs acc =
              decodeLoop (bs.drop 43) (parseRecord (bs.take 43) :: acc) := by
            rw [decodeLoop, if_neg h0, if_neg hlt]
          have hlen : (bs.drop 43).length = bs.length - 43 := by simp
          have iht := ih (bs.drop 43) (parseRecord (bs.take 43) :: acc) (by omega)
          refine ⟨fun hm => ?_, fun hne => ?_⟩
          · obtain ⟨r, hr⟩ := iht.1 (by omega)
            exact ⟨r, by rw [hstep, hr]⟩
          · rw [hstep, iht.2 (by omega)]

/-- C7. On any input that carries the full 4-byte header, the snapshot
decoder fails with the wrong-version error exactly when the header is not
version 1, and otherwise fails (with an unexpected-EOF error) exactly when
the input ends partway through a 43-byte record; a version-1 header followed
by any whole number of 43-byte records decodes successfully. -/
theorem decode_error_characterization (bs : List Nat) (h4 : 4 ≤ bs.length) :
    (headerVersion bs ≠ encodingVersion → decode bs = .error .wrongVersion) ∧
    (headerVersion bs = encodingVersion → (bs.length - 4) % 43 = 0 →
      ∃ r, decode bs = .ok r) ∧
    (headerVersion bs = encodingVersion → (bs.length - 4) % 43 ≠ 0 →
      decode bs = .error .unexpectedEOF) := by
  match bs, h4 with
  | b0 :: b1 :: b2 :: b3 :: rest, _ =>
    have hver : headerVersion (b0 :: b1 :: b2 :: b3 :: rest) = le4 b0 b1 b2 b3 := by
      simp [headerVersion, List.getD]
    have hlen : (b0 :: b1 :: b2 :: b3 :: rest).length - 4 = rest.length := by simp
    rw [hver, hlen]
    have hmod := decodeLoop_mod rest.length rest [] le_rfl
    refine ⟨fun hne => ?_, fun he hm => ?_, fun he hm => ?_⟩
    · rw [decode, if_pos hne]
    · obtain ⟨r, hr⟩ := hmod.1 hm
      exact ⟨r, by rw [decode, if_neg (by simp [he]), hr]⟩
    · rw [decode, if_neg (by simp [he]), hmod.2 hm]

/-- Closed instance of `decode_error_characterization`: the bare version-1
header decodes, and a header followed by one stray byte is an error. -/
theorem decode_error_characterization_witness :
    (∃ r, decode [1, 0, 0, 0] = .ok r) ∧
    decode [1, 0, 0, 0, 9] = .error .unexpectedEOF ∧
    decode [2, 0, 0, 0] = .error .wrongVersion :=
  ⟨(decode_error_characterization [1, 0, 0, 0] (by decide)).2.1 (by decide) (by decide),
   (decode_error_characterization [1, 0, 0, 0, 9] (by decide)).2.2 (by decide) (by decide),
   (decode_error_characterization [2, 0, 0, 0] (by decide)).1 (by decide)⟩

end Kawana
